import Mathlib

/-!
Shallow embedding of DylanJones/wol-proxy (src/main.rs, src/bin/keepawake.rs,
src/bin/wol.rs): the activity tracker used by the per-connection tasks, the
two wake-lock supervisor loops, the remote-wake handshake of wol.rs, the MAC
parser, and the accept loops of the three binaries.
-/

namespace WolProxy

/-- 2 to the 64, written as a literal: the modulus of Rust's AtomicU64. -/
def U64 : Nat := 18446744073709551616

/-- A single tracker operation performed by a connection task:
incrementing or decrementing the shared active-connection counter. -/
inductive AEvent
  | enter
  | leave
deriving DecidableEq, Repr

/-- One fetch_add(1, SeqCst) on the AtomicU64 counter, together with the
notify decision of the connection task (main.rs line 92, keepawake.rs
line 119): the supervisor is notified iff the previous value was 0.
Returns (new counter value, notified). -/
def enterStep (c : Nat) : Nat × Bool := ((c + 1) % U64, c == 0)

/-- One fetch_sub(1, SeqCst) on the AtomicU64 counter, together with the
notify decision of the connection task (main.rs line 102, keepawake.rs
line 129): the supervisor is notified iff the previous value was 1.
Wrapping subtraction on a u64 is addition of 2 to the 64 minus 1 mod
2 to the 64. Returns (new counter value, notified). -/
def leaveStep (c : Nat) : Nat × Bool := ((c + (U64 - 1)) % U64, c == 1)

/-- Run the u64 counter over a sequence of tracker operations, recording for
each operation the event, the pre-operation counter value, and whether the
operation raised a notification. -/
def trackerTrace (c : Nat) : List AEvent → List (AEvent × Nat × Bool)
  | [] => []
  | .enter :: r => (.enter, c, (enterStep c).2) :: trackerTrace (enterStep c).1 r
  | .leave :: r => (.leave, c, (leaveStep c).2) :: trackerTrace (leaveStep c).1 r

/-- Modelled from the spec: the ideal ActivityTracker on true natural
numbers, whose count is the exact number of currently active connections and
whose signal is raised exactly on the 0/1 boundary crossings. Used as the
specification side of the refinement for claim C1. -/
def specTrackerTrace (c : Nat) : List AEvent → List (AEvent × Nat × Bool)
  | [] => []
  | .enter :: r => (.enter, c, c == 0) :: specTrackerTrace (c + 1) r
  | .leave :: r => (.leave, c, c == 1) :: specTrackerTrace (c - 1) r

/-- A sequence of tracker operations is well formed from balance `bal` when
no decrement ever meets a zero balance: in every prefix, the number of
leave operations never exceeds `bal` plus the number of enter operations.
This is the hypothesis of claim C1 that no leave() precedes its matching
enter(). -/
def wfFrom (bal : Nat) : List AEvent → Bool
  | [] => true
  | .enter :: r => wfFrom (bal + 1) r
  | .leave :: r => bal != 0 && wfFrom (bal - 1) r

/-- Final counter value after running a list of tracker operations on the
u64 counter. -/
def runCount (c : Nat) : List AEvent → Nat
  | [] => c
  | .enter :: r => runCount (enterStep c).1 r
  | .leave :: r => runCount (leaveStep c).1 r

/-- Outcome of handle_client in main.rs (lines 62-66) and keepawake.rs
(lines 87-91), which are identical: connect to the target (may fail), then
copy_bidirectional (may fail). -/
inductive PCErr
  | connectFailed
  | copyFailed
deriving DecidableEq, Repr

/-- handle_client of main.rs / keepawake.rs: `TcpStream::connect(..).await?`
then `copy_bidirectional(..).await?`. The two question marks are the only
exits; the oracle booleans say whether each call succeeds. -/
def handle_client_local (connectOk copyOk : Bool) : Except PCErr Unit :=
  if connectOk then
    if copyOk then .ok () else .error .copyFailed
  else .error .connectFailed

/-- The spawned per-connection task of main.rs (lines 90-105) and
keepawake.rs (lines 117-132), which are identical, as the list of tracker
operations it performs: fetch_add, then a match on handle_client whose two
arms only print, then fetch_sub. The decrement is outside the match, so it
runs on the success arm and on every error arm. -/
def connTaskOps (connectOk copyOk : Bool) : List AEvent :=
  [.enter] ++
  (match handle_client_local connectOk copyOk with
   | .ok _ => []
   | .error _ => []) ++
  [.leave]

/-- One observation consumed by one iteration of a supervisor loop:
the time at which `ac_notify.notified()` completed, the counter value read
right after waking, the result of the keepawake Builder create() call (used
only when the acquire branch runs), the absolute time at which a fresh
notification would arrive during the debounce wait (if any), and the
counter value read at the post-wait recheck. -/
structure SupObs where
  t : Nat
  c1 : Nat
  acqOk : Bool
  cancel : Option Nat
  c2 : Nat
deriving DecidableEq, Repr

/-- A wake-lock state transition performed by a supervisor, stamped with the
time at which it happens. -/
inductive LockEv
  | acquire (t : Nat)
  | release (t : Nat)
deriving DecidableEq, Repr

/-- Time at which keepawake.rs's debounce wait (lines 53-56) ends: a
`select!` racing `sleep(timeout)` against a fresh `notified()`, so the wait
ends at whichever of the two comes first. -/
def debounceWakeK (t timeout : Nat) (cancel : Option Nat) : Nat :=
  match cancel with
  | some tc => min tc (t + timeout)
  | none => t + timeout

/-- Time at which main.rs's debounce wait (line 51) ends: a plain
`sleep(timeout)` that is not cancellable, so the wait always ends a full
timeout after it began, whether or not a fresh notification arrives. -/
def debounceWakeM (t timeout : Nat) (cancel : Option Nat) : Nat := t + timeout

/-- One iteration of keepawake.rs's supervisor loop (lines 35-84), after
`notified()` completed. State is the `locked` flag (the `_awake` Option
mirrors it exactly). If the count read is positive and the lock is not held,
Builder create() runs: on failure the `?` exits the loop with the error.
Otherwise, on a zero count, the cancellable debounce wait runs and the count
is re-read: the lock is dropped only if the recheck still reads 0 and the
lock was held. Returns the new state and the lock transitions performed. -/
def supStepK (timeout : Nat) (locked : Bool) (o : SupObs) : Except Unit (Bool × List LockEv) :=
  if o.c1 > 0 then
    if !locked then
      if o.acqOk then .ok (true, [.acquire o.t]) else .error ()
    else .ok (locked, [])
  else
    if o.c2 = 0 then
      if locked then .ok (false, [.release (debounceWakeK o.t timeout o.cancel)])
      else .ok (locked, [])
    else .ok (locked, [])

/-- One iteration of main.rs's supervisor loop (lines 34-59). State is
whether `_awake` is Some. The debounce wait is a plain sleep. On a zero
recheck the code assigns `_awake = None` unconditionally; this is a
Held-to-Released transition only when `_awake` was Some, which is what the
event list records. -/
def supStepM (timeout : Nat) (awake : Bool) (o : SupObs) : Except Unit (Bool × List LockEv) :=
  if o.c1 > 0 then
    if !awake then
      if o.acqOk then .ok (true, [.acquire o.t]) else .error ()
    else .ok (awake, [])
  else
    if o.c2 = 0 then
      .ok (false, if awake then [.release (debounceWakeM o.t timeout o.cancel)] else [])
    else .ok (awake, [])

/-- Run keepawake.rs's supervisor loop over a list of observations,
accumulating the lock transitions; a create() failure ends the task with
the error, as the `?` on line 48 does. -/
def supRunK (timeout : Nat) (locked : Bool) : List SupObs → Except Unit (Bool × List LockEv)
  | [] => .ok (locked, [])
  | o :: os =>
    match supStepK timeout locked o with
    | .error e => .error e
    | .ok (l2, evs) =>
      match supRunK timeout l2 os with
      | .error e => .error e
      | .ok (lf, evs2) => .ok (lf, evs ++ evs2)

/-- Run main.rs's supervisor loop over a list of observations. -/
def supRunM (timeout : Nat) (awake : Bool) : List SupObs → Except Unit (Bool × List LockEv)
  | [] => .ok (awake, [])
  | o :: os =>
    match supStepM timeout awake o with
    | .error e => .error e
    | .ok (a2, evs) =>
      match supRunM timeout a2 os with
      | .error e => .error e
      | .ok (af, evs2) => .ok (af, evs ++ evs2)

/-- What one iteration of an accept loop does, seen from main: either the
accepted connection is handed to a spawned task and the loop continues, or
the accept error propagates out of main through the question mark. -/
inductive AcceptOutcome
  | spawnAndContinue
  | exitErr (e : String)
deriving DecidableEq, Repr

/-- keepawake.rs accept loop body (lines 109-110): `listener.accept().await?`
exits main with the error; on success the connection task is spawned and the
loop continues. -/
def accept_iter_keepawake : Except String Unit → AcceptOutcome
  | .error e => .exitErr e
  | .ok _ => .spawnAndContinue

/-- main.rs accept loop body (lines 82-83): same shape. -/
def accept_iter_main : Except String Unit → AcceptOutcome
  | .error e => .exitErr e
  | .ok _ => .spawnAndContinue

/-- wol.rs accept loop body (lines 111-112): same shape; a handle_client
error is consumed by the match inside the spawned task (lines 113-118) and
never reaches the loop. -/
def accept_iter_wol : Except String Unit → AcceptOutcome
  | .error e => .exitErr e
  | .ok _ => .spawnAndContinue

/-- keepawake.rs main, line 105: the supervisor future is passed to
tokio spawn and the returned JoinHandle is dropped, so the accept loop's
behaviour is a function of the accept result alone and never inspects the
supervisor task's result. -/
def keepawake_main_iter (supRes : Except Unit (Bool × List LockEv))
    (acceptRes : Except String Unit) : AcceptOutcome :=
  accept_iter_keepawake acceptRes

/-- One attempt of `ping_rs::send_ping_async` inside wol.rs's ping loop:
how much time the call consumed and whether it returned Ok. -/
structure Attempt where
  dur : Nat
  ok : Bool
deriving DecidableEq, Repr

/-- The loop body of wol.rs's `ping` (lines 43-58), with `elapsed` the time
accumulated so far: first check `start.elapsed() > timeout` and give up with
false; otherwise run the next probe attempt; a success returns true, a
failure loops. `none` means the supplied attempt list was too short to
settle the loop (the real loop always has a next attempt). -/
def pingFrom (timeout : Nat) (elapsed : Nat) : List Attempt → Option Bool
  | [] => if timeout < elapsed then some false else none
  | a :: rest =>
    if timeout < elapsed then some false
    else if a.ok then some true
    else pingFrom timeout (elapsed + a.dur) rest

/-- wol.rs `ping` (lines 37-59): run the probe loop from elapsed time 0. -/
def ping (timeout : Nat) (as : List Attempt) : Option Bool := pingFrom timeout 0 as

/-- Outcome of wol.rs's handle_client: `ok` is a completed proxy session,
`wakeTimeout` is the bail with message "Server did not wake up in time",
`sendErr` a failed MagicPacket send_to, `connectErr` a failed outbound
connect, `copyErr` a failed copy_bidirectional. -/
inductive WolOutcome
  | ok
  | wakeTimeout
  | sendErr
  | connectErr
  | copyErr
deriving DecidableEq, Repr

/-- Oracle for one run of wol.rs's handle_client: the probe attempts
consumed by the initial 1-second ping, whether MagicPacket send_to
succeeds, the probe attempts consumed by the post-wake ping, and whether
the outbound connect and the bidirectional copy succeed. -/
structure WolWorld where
  probes1 : List Attempt
  sendOk : Bool
  probes2 : List Attempt
  connectOk : Bool
  copyOk : Bool
deriving DecidableEq, Repr

/-- Result of one run of wol.rs's handle_client: the outcome, the number of
times `pkt.send_to` was invoked, the number of times `TcpStream::connect`
was invoked, and the number of times `copy_bidirectional` was invoked. -/
structure WolResult where
  outcome : WolOutcome
  wolSends : Nat
  connects : Nat
  copies : Nat
deriving DecidableEq, Repr

/-- The tail of wol.rs's handle_client (lines 82-88): connect to the target
and copy bidirectionally, each `?` aborting on failure. `sends` is the
number of wake packets already sent when this part starts. -/
def proxyPart (w : WolWorld) (sends : Nat) : Option WolResult :=
  if w.connectOk then
    if w.copyOk then some ⟨.ok, sends, 1, 1⟩ else some ⟨.copyErr, sends, 1, 1⟩
  else some ⟨.connectErr, sends, 1, 0⟩

/-- wol.rs handle_client (lines 61-89): probe with a 1-second timeout; if
reachable, proxy at once with zero wake packets; otherwise send exactly one
magic packet (a send failure aborts through the `?`), then probe again with
the configured timeout; if that fails, bail with the wake-timeout error,
otherwise proxy. `none` means an oracle attempt list was too short. -/
def handle_client_wol (timeout : Nat) (w : WolWorld) : Option WolResult :=
  match ping 1 w.probes1 with
  | none => none
  | some true => proxyPart w 0
  | some false =>
    if w.sendOk then
      match ping timeout w.probes2 with
      | none => none
      | some true => proxyPart w 1
      | some false => some ⟨.wakeTimeout, 1, 0, 0⟩
    else some ⟨.sendErr, 1, 0, 0⟩

/-- Value of one hexadecimal digit, as accepted by Rust's
char::to_digit(16): 0-9, a-f, A-F. -/
def hexDigitVal (c : Char) : Option Nat :=
  if 48 ≤ c.toNat && c.toNat ≤ 57 then some (c.toNat - 48)
  else if 97 ≤ c.toNat && c.toNat ≤ 102 then some (c.toNat - 97 + 10)
  else if 65 ≤ c.toNat && c.toNat ≤ 70 then some (c.toNat - 65 + 10)
  else none

/-- The digit-accumulation loop of Rust's from_str_radix for u8 at radix 16:
every character must be a hex digit and the accumulated value must stay
within u8 (the checked multiply and add fail exactly when the value would
exceed 255). -/
def parseHexDigitsU8 (acc : Nat) : List Char → Option Nat
  | [] => some acc
  | c :: r =>
    match hexDigitVal c with
    | none => none
    | some d => if acc * 16 + d ≤ 255 then parseHexDigitsU8 (acc * 16 + d) r else none

/-- Rust's u8::from_str_radix(s, 16): an empty string is an error; an
optional leading plus sign is consumed (a lone plus sign is an error; a
minus sign is not consumed for unsigned types and fails as a non-digit);
then one or more hex digits are accumulated with a u8 range check. -/
def from_str_radix_u8 (s : List Char) : Option Nat :=
  match s with
  | [] => none
  | '+' :: rest =>
    match rest with
    | [] => none
    | _ => parseHexDigitsU8 0 rest
  | _ => parseHexDigitsU8 0 s

/-- The two-character slice `&mac[3*i..3*i+2]` read by parse_mac for
group i. -/
def slice2 (mac : List Char) (i : Nat) : List Char := (mac.drop (3 * i)).take 2

/-- The loop of wol.rs's parse_mac (lines 93-96) over the remaining group
indices, carrying the bytes parsed so far. Rust's `&mac[3*i..3*i+2]` drops
the process with a panic when the upper index exceeds the string length;
that is the outer `none`. A from_str_radix failure returns Err through the
`?`. -/
def parse_mac_go (mac : List Char) : List Nat → List Nat → Option (Except Unit (List Nat))
  | [], acc => some (.ok acc)
  | i :: is, acc =>
    if 3 * i + 2 ≤ mac.length then
      match from_str_radix_u8 (slice2 mac i) with
      | none => some (.error ())
      | some b => parse_mac_go mac is (acc ++ [b])
    else none

/-- wol.rs parse_mac (lines 92-98): parse the six two-character slices at
offsets 0, 3, 6, 9, 12, 15 as hex bytes. The input is the character list of
an ASCII string (for ASCII, Rust's byte indexing coincides with character
indexing). -/
def parse_mac (mac : List Char) : Option (Except Unit (List Nat)) :=
  parse_mac_go mac [0, 1, 2, 3, 4, 5] []

/-- All six slices of a MAC string parse under u8 from_str_radix. -/
def macSlicesOk (mac : List Char) : Bool :=
  [0, 1, 2, 3, 4, 5].all fun i => (from_str_radix_u8 (slice2 mac i)).isSome

/-- The six bytes parsed from the six slices of a MAC string. -/
def macBytes (mac : List Char) : List Nat :=
  [0, 1, 2, 3, 4, 5].map fun i => (from_str_radix_u8 (slice2 mac i)).getD 0

/-- The strict reading of a valid hexadecimal pair: exactly two hex
digits. Follows the spec's words for claim C9; the code accepts more. -/
def isStrictHexPair (s : List Char) : Bool :=
  s.length == 2 && s.all fun c => (hexDigitVal c).isSome

/-! Theorems. -/

/-- Under well-formedness and a length bound ruling out u64 wraparound, the
u64 tracker trace coincides with the ideal natural-number trace, and every
leave operation sees a positive pre-count. -/
theorem trackerTrace_eq_spec (evs : List AEvent) :
    ∀ c : Nat, wfFrom c evs = true → c + evs.length < U64 →
      trackerTrace c evs = specTrackerTrace c evs ∧
        ∀ p ∈ specTrackerTrace c evs, p.1 = .leave → 1 ≤ p.2.1 := by
  induction evs with
  | nil =>
    intro c _ _
    exact ⟨rfl, by simp [specTrackerTrace]⟩
  | cons e r ih =>
    intro c hwf hlen
    cases e with
    | enter =>
      have hwf2 : wfFrom (c + 1) r = true := by simpa [wfFrom] using hwf
      have hlen2 : (c + 1) + r.length < U64 := by
        simp [List.length_cons] at hlen
        omega
      have hstep : (c + 1) % U64 = c + 1 := Nat.mod_eq_of_lt (by omega)
      obtain ⟨ih1, ih2⟩ := ih (c + 1) hwf2 hlen2
      refine ⟨?_, ?_⟩
      · simp only [trackerTrace, specTrackerTrace, enterStep, hstep, ih1]
      · intro p hp
        simp only [specTrackerTrace, List.mem_cons] at hp
        rcases hp with hp | hp
        · subst hp; intro h; simp at h
        · exact ih2 p hp
    | leave =>
      have hwf0 : (c != 0 && wfFrom (c - 1) r) = true := by simpa [wfFrom] using hwf
      have hc : 1 ≤ c := by
        rcases Bool.and_eq_true_iff.mp hwf0 with ⟨h1, _⟩
        have : c ≠ 0 := by simpa using h1
        omega
      have hwf2 : wfFrom (c - 1) r = true := (Bool.and_eq_true_iff.mp hwf0).2
      have hlen2 : (c - 1) + r.length < U64 := by
        simp [List.length_cons] at hlen
        omega
      have hstep : (c + (U64 - 1)) % U64 = c - 1 := by
        have h1 : c + (U64 - 1) = (c - 1) + U64 := by
          simp only [U64]
          omega
        have h2 : c - 1 < U64 := by
          simp [List.length_cons] at hlen
          omega
        rw [h1, Nat.add_mod_right]
        exact Nat.mod_eq_of_lt h2
      obtain ⟨ih1, ih2⟩ := ih (c - 1) hwf2 hlen2
      refine ⟨?_, ?_⟩
      · simp only [trackerTrace, specTrackerTrace, leaveStep, hstep, ih1]
      · intro p hp
        simp only [specTrackerTrace, List.mem_cons] at hp
        rcases hp with hp | hp
        · subst hp; intro _; exact hc
        · exact ih2 p hp

/-- In the ideal trace, the signal bit of every entry is true exactly when
the operation crossed the 0/1 boundary: an enter from pre-count 0 or a
leave from pre-count 1. -/
theorem specTrackerTrace_signal (evs : List AEvent) :
    ∀ (c : Nat) (p : AEvent × Nat × Bool), p ∈ specTrackerTrace c evs →
      (p.2.2 = true ↔ (p.1 = .enter ∧ p.2.1 = 0) ∨ (p.1 = .leave ∧ p.2.1 = 1)) := by
  induction evs with
  | nil => intro c p hp; simp [specTrackerTrace] at hp
  | cons e r ih =>
    intro c p hp
    cases e with
    | enter =>
      simp only [specTrackerTrace, List.mem_cons] at hp
      rcases hp with hp | hp
      · subst hp; simp
      · exact ih (c + 1) p hp
    | leave =>
      simp only [specTrackerTrace, List.mem_cons] at hp
      rcases hp with hp | hp
      · subst hp; simp
      · exact ih (c - 1) p hp

/-- C1: for every sequence of enter/leave operations in which no leave
precedes its matching enter and which is short enough not to wrap the u64
counter, the counter never underflows (every leave sees a pre-count of at
least 1, so the count stays non-negative and the u64 trace equals the ideal
natural-number trace), and a notification is raised by an operation iff it
crossed the 0/1 boundary: an enter iff its pre-count was 0, a leave iff its
pre-count was 1, i.e. its post-count is 0. -/
theorem tracker_invariant_c1 (evs : List AEvent)
    (hwf : wfFrom 0 evs = true) (hlen : evs.length < U64) :
    trackerTrace 0 evs = specTrackerTrace 0 evs ∧
      (∀ p ∈ trackerTrace 0 evs, p.1 = .leave → 1 ≤ p.2.1) ∧
      (∀ p ∈ trackerTrace 0 evs,
        (p.2.2 = true ↔ (p.1 = .enter ∧ p.2.1 = 0) ∨ (p.1 = .leave ∧ p.2.1 = 1))) := by
  obtain ⟨heq, hpos⟩ := trackerTrace_eq_spec evs 0 hwf (by simpa using hlen)
  refine ⟨heq, ?_, ?_⟩
  · intro p hp
    exact hpos p (heq ▸ hp)
  · intro p hp
    exact specTrackerTrace_signal evs 0 p (heq ▸ hp)

/-- Witness for C1 at the concrete sequence enter, enter, leave, leave. -/
theorem tracker_invariant_c1_witness :
    trackerTrace 0 [.enter, .enter, .leave, .leave] =
      specTrackerTrace 0 [.enter, .enter, .leave, .leave] :=
  (tracker_invariant_c1 [.enter, .enter, .leave, .leave] (by decide) (by decide)).1

/-- Once keepawake.rs's supervisor is unlocked, iterations that keep reading
a zero count perform no lock transitions. -/
theorem supRunK_idle (timeout : Nat) (os : List SupObs)
    (h : ∀ o ∈ os, o.c1 = 0 ∧ o.c2 = 0) :
    supRunK timeout false os = .ok (false, []) := by
  induction os with
  | nil => rfl
  | cons o os ih =>
    obtain ⟨h1, h2⟩ := h o (List.mem_cons_self o os)
    have hstep : supStepK timeout false o = .ok (false, []) := by
      simp [supStepK, h1, h2]
    have hrest := ih fun o2 ho2 => h o2 (List.mem_cons_of_mem o ho2)
    simp [supRunK, hstep, hrest]

/-- Once main.rs's supervisor has dropped the lock, iterations that keep
reading a zero count perform no lock transitions. -/
theorem supRunM_idle (timeout : Nat) (os : List SupObs)
    (h : ∀ o ∈ os, o.c1 = 0 ∧ o.c2 = 0) :
    supRunM timeout false os = .ok (false, []) := by
  induction os with
  | nil => rfl
  | cons o os ih =>
    obtain ⟨h1, h2⟩ := h o (List.mem_cons_self o os)
    have hstep : supStepM timeout false o = .ok (false, []) := by
      simp [supStepM, h1, h2]
    have hrest := ih fun o2 ho2 => h o2 (List.mem_cons_of_mem o ho2)
    simp [supRunM, hstep, hrest]

/-- C2: if the count reaches 0 (a signal observed at time t0 with count 0,
no fresh signal arriving during the wait since the count stays 0) and every
later supervisor wakeup still reads 0, then both supervisors release the
lock exactly once, at time t0 plus the debounce timeout, hence no earlier
than the timeout after the signal was observed. -/
theorem supervisor_release_c2 (timeout t0 : Nat) (b : Bool) (rest : List SupObs)
    (hrest : ∀ o ∈ rest, o.c1 = 0 ∧ o.c2 = 0) :
    supRunK timeout true (⟨t0, 0, b, none, 0⟩ :: rest) =
      .ok (false, [.release (t0 + timeout)]) ∧
    supRunM timeout true (⟨t0, 0, b, none, 0⟩ :: rest) =
      .ok (false, [.release (t0 + timeout)]) := by
  constructor
  · have hstep : supStepK timeout true ⟨t0, 0, b, none, 0⟩ =
        .ok (false, [.release (t0 + timeout)]) := by
      simp [supStepK, debounceWakeK]
    simp [supRunK, hstep, supRunK_idle timeout rest hrest]
  · have hstep : supStepM timeout true ⟨t0, 0, b, none, 0⟩ =
        .ok (false, [.release (t0 + timeout)]) := by
      simp [supStepM, debounceWakeM]
    simp [supRunM, hstep, supRunM_idle timeout rest hrest]

/-- Witness for C2 at timeout 15, signal time 7, one trailing idle
observation. -/
theorem supervisor_release_c2_witness :
    supRunK 15 true [⟨7, 0, true, none, 0⟩, ⟨30, 0, true, none, 0⟩] =
      .ok (false, [.release 22]) ∧
    supRunM 15 true [⟨7, 0, true, none, 0⟩, ⟨30, 0, true, none, 0⟩] =
      .ok (false, [.release 22]) :=
  supervisor_release_c2 15 7 true [⟨30, 0, true, none, 0⟩] (by decide)

/-- While keepawake.rs's supervisor holds the lock, any run of iterations
each of which reads a positive count either at wakeup or at the debounce
recheck leaves the lock held and performs no transition. -/
theorem supRunK_held (timeout : Nat) (os : List SupObs)
    (h : ∀ o ∈ os, 0 < o.c1 ∨ 0 < o.c2) :
    supRunK timeout true os = .ok (true, []) := by
  induction os with
  | nil => rfl
  | cons o os ih =>
    have hstep : supStepK timeout true o = .ok (true, []) := by
      rcases h o (List.mem_cons_self o os) with h1 | h2
      · simp [supStepK, h1]
      · rcases Nat.eq_zero_or_pos o.c1 with hz | hp
        · simp [supStepK, hz, Nat.pos_iff_ne_zero.mp h2]
        · simp [supStepK, hp]
    have hrest := ih fun o2 ho2 => h o2 (List.mem_cons_of_mem o ho2)
    simp [supRunK, hstep, hrest]

/-- Same for main.rs's supervisor. -/
theorem supRunM_held (timeout : Nat) (os : List SupObs)
    (h : ∀ o ∈ os, 0 < o.c1 ∨ 0 < o.c2) :
    supRunM timeout true os = .ok (true, []) := by
  induction os with
  | nil => rfl
  | cons o os ih =>
    have hstep : supStepM timeout true o = .ok (true, []) := by
      rcases h o (List.mem_cons_self o os) with h1 | h2
      · simp [supStepM, h1]
      · rcases Nat.eq_zero_or_pos o.c1 with hz | hp
        · simp [supStepM, hz, Nat.pos_iff_ne_zero.mp h2]
        · simp [supStepM, hp]
    have hrest := ih fun o2 ho2 => h o2 (List.mem_cons_of_mem o ho2)
    simp [supRunM, hstep, hrest]

/-- C3: if a connection closes and a new one opens before the debounce
timeout elapses, every supervisor wakeup in the interval reads a positive
count either immediately (the new connection arrived before the load) or at
the timer-expiry recheck, so both supervisors keep the lock held for the
whole run and never perform a Held-to-Released transition: the release
branch fires only on a count of 0 observed at the recheck. -/
theorem supervisor_noflicker_c3 (timeout : Nat) (os : List SupObs)
    (h : ∀ o ∈ os, 0 < o.c1 ∨ 0 < o.c2) :
    supRunK timeout true os = .ok (true, []) ∧
    supRunM timeout true os = .ok (true, []) :=
  ⟨supRunK_held timeout os h, supRunM_held timeout os h⟩

/-- Witness for C3: a close observed at time 0 with the reopened connection
counted by the recheck, then a wakeup already reading count 1. -/
theorem supervisor_noflicker_c3_witness :
    supRunK 15 true [⟨0, 0, true, some 2, 1⟩, ⟨2, 1, true, none, 0⟩] = .ok (true, []) ∧
    supRunM 15 true [⟨0, 0, true, some 2, 1⟩, ⟨2, 1, true, none, 0⟩] = .ok (true, []) :=
  supervisor_noflicker_c3 15 [⟨0, 0, true, some 2, 1⟩, ⟨2, 1, true, none, 0⟩] (by decide)

/-- C4 as stated is false of main.rs: its debounce wait is a plain sleep,
so even when a fresh signal arrives at time 3, well before the timer expiry
at time 10, the recheck happens only at time 10 — the supervisor sleeps the
remaining timeout instead of aborting. keepawake.rs's select-based wait does
end at time 3. -/
theorem supervisor_cancel_c4_cex :
    debounceWakeM 0 10 (some 3) = 10 ∧ debounceWakeM 0 10 (some 3) ≠ 3 ∧
      debounceWakeK 0 10 (some 3) = 3 := by
  decide

/-- C4 amended: in keepawake.rs's supervisor the Held-with-count-0 debounce
wait is cancellable: a fresh signal at time tc before the timer expiry ends
the wait immediately at tc, and with a positive count at the recheck the
supervisor remains Held with no transition. In main.rs's supervisor the
wait is not cancellable: it always ends a full timeout after it began, but
the supervisor likewise remains Held through the recheck. -/
theorem supervisor_cancel_c4 (timeout t tc c2 : Nat) (b : Bool)
    (h1 : tc < t + timeout) (h2 : 0 < c2) :
    debounceWakeK t timeout (some tc) = tc ∧
    supStepK timeout true ⟨t, 0, b, some tc, c2⟩ = .ok (true, []) ∧
    debounceWakeM t timeout (some tc) = t + timeout ∧
    supStepM timeout true ⟨t, 0, b, some tc, c2⟩ = .ok (true, []) := by
  refine ⟨?_, ?_, rfl, ?_⟩
  · simp [debounceWakeK, Nat.min_eq_left (Nat.le_of_lt h1)]
  · simp [supStepK, Nat.pos_iff_ne_zero.mp h2]
  · simp [supStepM, Nat.pos_iff_ne_zero.mp h2]

/-- Witness for C4 amended at timeout 10, signal observed at 0, fresh
signal at 3, recheck count 1. -/
theorem supervisor_cancel_c4_witness :
    debounceWakeK 0 10 (some 3) = 3 ∧
    supStepK 10 true ⟨0, 0, true, some 3, 1⟩ = .ok (true, []) ∧
    debounceWakeM 0 10 (some 3) = 10 ∧
    supStepM 10 true ⟨0, 0, true, some 3, 1⟩ = .ok (true, []) :=
  supervisor_cancel_c4 10 0 3 1 true (by decide) (by decide)

/-- The proxy tail of wol.rs's handle_client always returns a result and
never touches the wake-packet count it was given. -/
theorem proxyPart_sends (w : WolWorld) (sends : Nat) (r : WolResult)
    (h : proxyPart w sends = some r) : r.wolSends = sends := by
  unfold proxyPart at h
  rcases hc : w.connectOk with _ | _ <;> rw [hc] at h
  · simp only [Bool.false_eq_true, if_false, Option.some.injEq] at h
    rw [← h]
  · rcases hy : w.copyOk with _ | _ <;> rw [hy] at h <;>
      simp only [Bool.false_eq_true, if_false, if_true, Option.some.injEq] at h <;>
      rw [← h]

/-- C5: for every run of wol.rs's handle_client that the oracle resolves,
the number of MagicPacket send_to invocations is exactly 0 when the initial
1-second probe succeeds and exactly 1 when it fails, no matter how many
attempts the post-wake polling consumes and how the rest of the connection
goes: the polling loop never sends a second wake packet. -/
theorem wol_single_send_c5 (timeout : Nat) (w : WolWorld) (r : WolResult)
    (h : handle_client_wol timeout w = some r) :
    r.wolSends = if ping 1 w.probes1 = some true then 0 else 1 := by
  unfold handle_client_wol at h
  rcases hp1 : ping 1 w.probes1 with _ | b1 <;> rw [hp1] at h
  · exact absurd h (by simp)
  · rcases b1 with _ | _
    · rw [if_neg (by simp)]
      simp only [] at h
      rcases hs : w.sendOk with _ | _ <;> rw [hs] at h
      · simp only [Bool.false_eq_true, if_false, Option.some.injEq] at h
        rw [← h]
      · simp only [if_true] at h
        rcases hp2 : ping timeout w.probes2 with _ | b2 <;> rw [hp2] at h
        · exact absurd h (by simp)
        · rcases b2 with _ | _
          · simp only [Option.some.injEq] at h
            rw [← h]
          · exact proxyPart_sends w 1 r h
    · rw [if_pos rfl]
      simp only [] at h
      exact proxyPart_sends w 0 r h

/-- Witness for C5: an unreachable-then-woken target with three failed
polling attempts before success; exactly one packet is sent. -/
theorem wol_single_send_c5_witness :
    (handle_client_wol 15 ⟨[⟨2, false⟩], true, [⟨1, false⟩, ⟨1, false⟩, ⟨1, false⟩, ⟨1, true⟩],
        true, true⟩ = some ⟨.ok, 1, 1, 1⟩) ∧
    ((⟨.ok, 1, 1, 1⟩ : WolResult).wolSends =
      if ping 1 [⟨2, false⟩] = some true then 0 else 1) :=
  ⟨by decide,
   wol_single_send_c5 15
     ⟨[⟨2, false⟩], true, [⟨1, false⟩, ⟨1, false⟩, ⟨1, false⟩, ⟨1, true⟩], true, true⟩
     ⟨.ok, 1, 1, 1⟩ (by decide)⟩

/-- C6: when the initial probe fails, the wake packet is sent, and the
target does not become reachable within the configured timeout, wol.rs's
handle_client returns the wake-timeout error having invoked connect zero
times and copy_bidirectional zero times — no outbound connection, no bytes
forwarded — and the accept loop, whose spawned task swallows the error in
its match, goes on accepting. -/
theorem wol_wake_timeout_c6 (timeout : Nat) (w : WolWorld)
    (h1 : ping 1 w.probes1 = some false) (hs : w.sendOk = true)
    (h2 : ping timeout w.probes2 = some false) :
    handle_client_wol timeout w = some ⟨.wakeTimeout, 1, 0, 0⟩ ∧
    accept_iter_wol (.ok ()) = .spawnAndContinue := by
  refine ⟨?_, rfl⟩
  unfold handle_client_wol
  rw [h1, hs, h2]
  simp

/-- Witness for C6: the target never answers; the probe loop exhausts the
3-second budget. -/
theorem wol_wake_timeout_c6_witness :
    handle_client_wol 3 ⟨[⟨2, false⟩], true, [⟨2, false⟩, ⟨2, false⟩], true, true⟩ =
      some ⟨.wakeTimeout, 1, 0, 0⟩ ∧
    accept_iter_wol (.ok ()) = .spawnAndContinue :=
  wol_wake_timeout_c6 3 ⟨[⟨2, false⟩], true, [⟨2, false⟩, ⟨2, false⟩], true, true⟩
    (by decide) (by decide) (by decide)

/-- C7: whatever handle_client does — success, failed outbound connect, or
forwarding error — the connection task of main.rs / keepawake.rs performs
exactly one enter and then exactly one leave, and running its operations on
any non-saturated u64 counter returns the counter to its starting value:
each successful enter is balanced by exactly one leave. -/
theorem conn_task_balance_c7 (connectOk copyOk : Bool) (c : Nat) (h : c + 1 < U64) :
    (connTaskOps connectOk copyOk).count .leave = 1 ∧
    (connTaskOps connectOk copyOk).count .enter = 1 ∧
    connTaskOps connectOk copyOk = [.enter, .leave] ∧
    runCount c (connTaskOps connectOk copyOk) = c := by
  have hops : connTaskOps connectOk copyOk = [.enter, .leave] := by
    rcases connectOk with _ | _ <;> rcases copyOk with _ | _ <;> rfl
  have hmod1 : (c + 1) % U64 = c + 1 := Nat.mod_eq_of_lt h
  have hmod2 : (c + 1 + (U64 - 1)) % U64 = c := by
    have he : c + 1 + (U64 - 1) = c + U64 := by omega
    rw [he, Nat.add_mod_right]
    exact Nat.mod_eq_of_lt (by omega)
  have hrun : runCount c [.enter, .leave] = ((c + 1) % U64 + (U64 - 1)) % U64 := rfl
  refine ⟨by rw [hops]; rfl, by rw [hops]; rfl, hops, ?_⟩
  rw [hops, hrun, hmod1, hmod2]

/-- Witness for C7 at a failed outbound connect with five connections
already active. -/
theorem conn_task_balance_c7_witness :
    (connTaskOps false true).count .leave = 1 ∧
    (connTaskOps false true).count .enter = 1 ∧
    connTaskOps false true = [.enter, .leave] ∧
    runCount 5 (connTaskOps false true) = 5 :=
  conn_task_balance_c7 false true 5 (by decide)

/-- C8 evaluated: when keepawake.rs's supervisor first observes a positive
count and Builder create() fails, the supervisor loop exits with the error
— but main spawned it with its JoinHandle dropped, so the accept loop still
spawns and continues: the process is not terminated and the error is
swallowed, contradicting the claim that acquisition failure is fatal. -/
theorem supervisor_acquire_failure_c8 :
    supStepK 300 false ⟨0, 1, false, none, 0⟩ = .error () ∧
    keepawake_main_iter (.error ()) (.ok ()) = .spawnAndContinue :=
  ⟨rfl, rfl⟩

/-- C10: in all three binaries an accept error propagates out of main
through the question mark and ends the accept loop with that error, while a
successful accept spawns the connection task and continues; per-connection
failures never reach the loop. -/
theorem accept_error_propagates_c10 (e : String) :
    accept_iter_keepawake (.error e) = .exitErr e ∧
    accept_iter_wol (.error e) = .exitErr e ∧
    accept_iter_main (.error e) = .exitErr e ∧
    accept_iter_keepawake (.ok ()) = .spawnAndContinue ∧
    accept_iter_wol (.ok ()) = .spawnAndContinue ∧
    accept_iter_main (.ok ()) = .spawnAndContinue :=
  ⟨rfl, rfl, rfl, rfl, rfl, rfl⟩

/-- One step of the parse_mac loop, when the slice for group i is in
bounds. -/
theorem parse_mac_go_cons (mac : List Char) (i : Nat) (is acc : List Nat)
    (h : 3 * i + 2 ≤ mac.length) :
    parse_mac_go mac (i :: is) acc =
      match from_str_radix_u8 (slice2 mac i) with
      | none => some (.error ())
      | some b => parse_mac_go mac is (acc ++ [b]) := by
  rw [parse_mac_go]
  rw [if_pos h]

/-- Closed form of the parse_mac loop over in-bounds group indices: it
returns Ok of the parsed bytes when every slice parses, and Err when some
slice does not; it never panics. -/
theorem parse_mac_go_eq (is : List Nat) : ∀ (mac : List Char) (acc : List Nat),
    (∀ i ∈ is, 3 * i + 2 ≤ mac.length) →
    parse_mac_go mac is acc =
      some (if is.all (fun i => (from_str_radix_u8 (slice2 mac i)).isSome) then
              .ok (acc ++ is.map fun i => (from_str_radix_u8 (slice2 mac i)).getD 0)
            else .error ()) := by
  induction is with
  | nil =>
    intro mac acc _
    simp [parse_mac_go]
  | cons i is ih =>
    intro mac acc h
    rw [parse_mac_go_cons mac i is acc (h i (List.mem_cons_self i is))]
    rcases hp : from_str_radix_u8 (slice2 mac i) with _ | b
    · simp [List.all_cons, hp]
    · show parse_mac_go mac is (acc ++ [b]) = _
      rw [ih mac (acc ++ [b]) (fun j hj => h j (List.mem_cons_of_mem i hj))]
      simp [List.all_cons, hp, List.append_assoc]

/-- On any input of length at least 17, parse_mac is determined by the six
two-character slices: Ok of the parsed bytes when all six parse, Err
otherwise, and never a panic. -/
theorem parse_mac_eq (mac : List Char) (hlen : 17 ≤ mac.length) :
    parse_mac mac =
      some (if macSlicesOk mac then .ok (macBytes mac) else .error ()) := by
  have hb : ∀ i ∈ [0, 1, 2, 3, 4, 5], 3 * i + 2 ≤ mac.length := by
    intro i hi
    fin_cases hi <;> omega
  have := parse_mac_go_eq [0, 1, 2, 3, 4, 5] mac [] hb
  simpa [macSlicesOk, macBytes] using this

/-- C9 as stated is false: parse_mac accepts slices that are not two hex
digits, because u8 from_str_radix also accepts a plus sign followed by one
hex digit. On the 17-character ASCII input with first group plus-one, the
first slice is not valid hexadecimal in the two-hex-digit sense, yet
parse_mac returns Ok with byte 1 for that group. -/
theorem parse_mac_c9_cex :
    (['+', '1', ':', '2', '2', ':', '3', '3', ':', '4', '4', ':', '5', '5',
        ':', '6', '6'] : List Char).length = 17 ∧
    (∀ cc ∈ (['+', '1', ':', '2', '2', ':', '3', '3', ':', '4', '4', ':',
        '5', '5', ':', '6', '6'] : List Char), cc.toNat < 128) ∧
    parse_mac ['+', '1', ':', '2', '2', ':', '3', '3', ':', '4', '4', ':',
        '5', '5', ':', '6', '6'] = some (.ok [1, 34, 51, 68, 85, 102]) ∧
    isStrictHexPair (slice2 ['+', '1', ':', '2', '2', ':', '3', '3', ':',
        '4', '4', ':', '5', '5', ':', '6', '6'] 0) = false :=
  ⟨rfl, by decide, rfl, rfl⟩

/-- C9 amended: for every ASCII input of byte length at least 17, parse_mac
returns a result without panicking, namely Ok of the six bytes parsed from
the two-character slices at byte offsets 0, 3, 6, 9, 12, 15 iff every one
of those slices parses under u8 from_str_radix at radix 16 — two hex
digits, or a plus sign followed by one hex digit — and Err otherwise; the
characters at the separator offsets 2, 5, 8, 11, 14 are never examined, so
the result is unchanged under any replacement of them: any separator
characters are accepted. -/
theorem parse_mac_c9 (mac : List Char) (hlen : 17 ≤ mac.length)
    (hascii : ∀ cc ∈ mac, cc.toNat < 128) :
    parse_mac mac =
      some (if macSlicesOk mac then .ok (macBytes mac) else .error ()) ∧
    ∀ mac2, 17 ≤ mac2.length →
      (∀ i ∈ [0, 1, 2, 3, 4, 5], slice2 mac2 i = slice2 mac i) →
      parse_mac mac2 = parse_mac mac := by
  refine ⟨parse_mac_eq mac hlen, ?_⟩
  intro mac2 hlen2 hs
  rw [parse_mac_eq mac hlen, parse_mac_eq mac2 hlen2]
  have e0 := hs 0 (by simp)
  have e1 := hs 1 (by simp)
  have e2 := hs 2 (by simp)
  have e3 := hs 3 (by simp)
  have e4 := hs 4 (by simp)
  have e5 := hs 5 (by simp)
  simp only [macSlicesOk, macBytes, List.all_cons, List.all_nil, List.map_cons,
    List.map_nil, e0, e1, e2, e3, e4, e5]

/-- Witness for C9 amended at a plain colon-separated MAC string. -/
theorem parse_mac_c9_witness :
    parse_mac ['a', 'a', ':', 'b', 'b', ':', 'c', 'c', ':', 'd', 'd', ':',
        'e', 'e', ':', 'f', 'f'] =
      some (if macSlicesOk ['a', 'a', ':', 'b', 'b', ':', 'c', 'c', ':',
          'd', 'd', ':', 'e', 'e', ':', 'f', 'f'] then
        .ok (macBytes ['a', 'a', ':', 'b', 'b', ':', 'c', 'c', ':', 'd',
          'd', ':', 'e', 'e', ':', 'f', 'f'])
      else .error ()) :=
  (parse_mac_c9 ['a', 'a', ':', 'b', 'b', ':', 'c', 'c', ':', 'd', 'd',
      ':', 'e', 'e', ':', 'f', 'f'] (by decide) (by decide)).1

end WolProxy
